import Mathlib

/-!
Verification of the A-Law encoder and WAV container writer of
`sketch/test_bread_board/generate_clean_wav.py`.

The Python functions are shallowly embedded: 16-bit samples are `Int`
(the source clamps explicitly), byte values are `Nat`, byte strings are
`List Nat`, and the float samples fed to the quantizers are modelled by
`ℚ` (every concrete value used in a theorem below is exactly
representable in binary floating point, so the substitution is faithful
at those points).
-/

namespace Solari

/-- Clamp to the 16-bit signed range: `max(-32768, min(32767, int(sample)))`. -/
def clamp16 (sample : Int) : Int := max (-32768) (min 32767 sample)

/-- The `elif` threshold cascade of `linear_to_alaw` selecting the segment
for a magnitude below the 32635 overflow cutoff. -/
def alawSeg (mag : Nat) : Nat :=
  if mag ≥ 16318 then 7
  else if mag ≥ 8159 then 6
  else if mag ≥ 4079 then 5
  else if mag ≥ 2039 then 4
  else if mag ≥ 1019 then 3
  else if mag ≥ 509 then 2
  else if mag ≥ 254 then 1
  else 0

/-- The mantissa expression of `linear_to_alaw`, named for the proofs below:
`(sample >> (seg + 3)) & 0x0F` when `seg >= 1`, else `sample >> 4`. -/
def alawMant (mag : Nat) : Nat :=
  if alawSeg mag ≥ 1 then (mag >>> (alawSeg mag + 3)) &&& 0x0F else mag >>> 4

/-- Magnitude path of `linear_to_alaw`: the early overflow return, segment
selection and mantissa extraction, producing the code without the sign bit
(the source ORs the sign bit onto this in both of its return statements). -/
def alawCore (mag : Nat) : Nat :=
  if mag ≥ 32635 then 0x7F
  else
    let seg := alawSeg mag
    let mant := if seg ≥ 1 then (mag >>> (seg + 3)) &&& 0x0F else mag >>> 4
    (seg <<< 4) ||| mant

/-- `linear_to_alaw(sample)` from `generate_clean_wav.py`: clamp, split off
the sign bit, take the absolute value, then encode the magnitude. -/
def linear_to_alaw (sample : Int) : Nat :=
  let s := clamp16 sample
  let sign : Nat := if s ≥ 0 then 0 else 0x80
  sign ||| alawCore s.natAbs

/-- The spec's threshold table: `threshold = [0, 254, 509, 1019, 2039, 4079, 8159, 16318]`. -/
def threshold : List Nat := [0, 254, 509, 1019, 2039, 4079, 8159, 16318]

/-- The spec's segment rule: the highest index `k` in `0..7` with
`magnitude ≥ threshold[k]`. -/
def segOfThresholds (mag : Nat) : Nat :=
  Nat.findGreatest (fun k => threshold.getD k 0 ≤ mag) 7

/-- The spec's step-by-step description of the encoder: clamp, sign bit,
magnitude, overflow early return, highest-threshold segment, mantissa with
the `seg = 0` discontinuity, then `sign | (seg << 4) | mantissa`. -/
def alawStepsSpec (x : Int) : Nat :=
  let s := max (-32768) (min 32767 x)
  let sign : Nat := if s < 0 then 0x80 else 0
  let mag := s.natAbs
  if mag ≥ 32635 then sign ||| 0x7F
  else
    let seg := segOfThresholds mag
    let mant := if seg ≥ 1 then (mag >>> (seg + 3)) &&& 0x0F else mag >>> 4
    sign ||| (seg <<< 4) ||| mant

/-- The four little-endian bytes `struct.pack('<I', n)` emits (for `n < 2^32`,
the only values `struct.pack` accepts). -/
def packU32 (n : Nat) : List Nat :=
  [n % 256, n / 256 % 256, n / 65536 % 256, n / 16777216 % 256]

/-- The two little-endian bytes `struct.pack('<H', n)` emits (for `n < 2^16`). -/
def packU16 (n : Nat) : List Nat := [n % 256, n / 256 % 256]

/-- `create_alaw_wav_header(sample_rate, num_samples)` from
`generate_clean_wav.py`, byte for byte: `RIFF` tag, chunk size written as
`36 + num_samples`, `WAVE`, `fmt ` chunk of declared size 18 (format code 6,
mono, byte rate equal to the sample rate, block align 1, 8 bits per sample,
zero extra-format bytes), then the `data` tag and the data size. -/
def create_alaw_wav_header (sample_rate num_samples : Nat) : List Nat :=
  [0x52, 0x49, 0x46, 0x46]
    ++ packU32 (36 + num_samples)
    ++ [0x57, 0x41, 0x56, 0x45]
    ++ [0x66, 0x6D, 0x74, 0x20]
    ++ packU32 18
    ++ packU16 6
    ++ packU16 1
    ++ packU32 sample_rate
    ++ packU32 sample_rate
    ++ packU16 1
    ++ packU16 8
    ++ packU16 0
    ++ [0x64, 0x61, 0x74, 0x61]
    ++ packU32 num_samples

/-- Little-endian 32-bit read at byte offset `i`, for stating what a WAV
parser recovers from a header field. -/
def readU32 (bs : List Nat) (i : Nat) : Nat :=
  bs.getD i 0 + 256 * bs.getD (i + 1) 0 + 65536 * bs.getD (i + 2) 0
    + 16777216 * bs.getD (i + 3) 0

/-- Truncation toward zero on `ℚ`: what `astype(np.int16)` does to each
in-range element of `audio * 32767`. -/
def truncQ (q : ℚ) : Int := if 0 ≤ q then ⌊q⌋ else ⌈q⌉

/-- The 16-bit quantizer of `create_clean_alaw_wav` applied to one sample:
`(audio * 32767).astype(np.int16)`. -/
def quantize16 (x : ℚ) : Int := truncQ (x * 32767)

/-- Modelled from the spec: the PCM8 quantizer
`byte = clamp(round((x + 1.0) * 127.5), 0, 255)`; the repository has no
8-bit PCM writer under src/ (only the A-Law path exists there). -/
def pcm8_quantize (x : ℚ) : Nat :=
  (max 0 (min 255 (round ((x + 1) * (127.5 : ℚ))))).toNat

theorem lor_shift4_eq : ∀ k < 8, ∀ m < 16, (k <<< 4) ||| m = 16 * k + m := by
  decide

theorem lor128_lt : ∀ m < 128, 128 ||| m = 128 + m := by
  decide

theorem xor128_lt : ∀ m < 128, m ^^^ 128 = 128 + m := by
  decide

theorem xor128_cancel : ∀ m < 128, (128 + m) ^^^ 128 = m := by
  decide

/-- The mantissa produced in every branch of `alawCore` is below 16. -/
theorem alawMant_lt (mag : Nat) : alawMant mag < 16 := by
  unfold alawMant
  split_ifs with hseg
  · exact Nat.lt_succ_of_le (Nat.and_le_right)
  · have h254 : mag < 254 := by
      unfold alawSeg at hseg
      by_contra hc
      push_neg at hc
      split_ifs at hseg <;> omega
    rw [Nat.shiftRight_eq_div_pow]
    omega

theorem alawSeg_lt (mag : Nat) : alawSeg mag < 8 := by
  unfold alawSeg; split_ifs <;> omega

set_option maxHeartbeats 1600000 in
theorem alawSeg_mono {a b : Nat} (h : a ≤ b) : alawSeg a ≤ alawSeg b := by
  unfold alawSeg; split_ifs <;> omega

/-- Closed form of the magnitude path as plain arithmetic. -/
theorem alawCore_eq_arith (mag : Nat) :
    alawCore mag = if mag ≥ 32635 then 127 else 16 * alawSeg mag + alawMant mag := by
  by_cases h : mag ≥ 32635
  · rw [if_pos h]; unfold alawCore; rw [if_pos h]
  · rw [if_neg h]; unfold alawCore; rw [if_neg h]
    show (alawSeg mag <<< 4) ||| alawMant mag = 16 * alawSeg mag + alawMant mag
    exact lor_shift4_eq _ (alawSeg_lt mag) _ (alawMant_lt mag)

theorem alawCore_lt (mag : Nat) : alawCore mag < 128 := by
  rw [alawCore_eq_arith]
  split_ifs with h
  · omega
  · have h1 := alawSeg_lt mag
    have h2 := alawMant_lt mag
    omega

/-- The upper nibble of the magnitude code is the segment (7 on overflow). -/
theorem alawCore_shiftRight4 (mag : Nat) :
    alawCore mag >>> 4 = if mag ≥ 32635 then 7 else alawSeg mag := by
  rw [alawCore_eq_arith]
  split_ifs with h
  · decide
  · have h1 := alawSeg_lt mag
    have h2 := alawMant_lt mag
    rw [Nat.shiftRight_eq_div_pow]
    show (16 * alawSeg mag + alawMant mag) / 2 ^ 4 = alawSeg mag
    norm_num
    omega

/-- The source's `elif` cascade computes exactly the spec's
highest-matching-threshold rule. -/
theorem alawSeg_eq_segOfThresholds (mag : Nat) : alawSeg mag = segOfThresholds mag := by
  unfold alawSeg segOfThresholds
  symm
  split_ifs with h1 h2 h3 h4 h5 h6 h7 <;>
    rw [Nat.findGreatest_eq_iff] <;>
    refine ⟨by omega, fun _ => by simp [threshold]; try omega, fun n hlt hle => ?_⟩ <;>
    interval_cases n <;> simp [threshold] <;> omega

theorem linear_to_alaw_eq_stepsSpec (x : Int) : linear_to_alaw x = alawStepsSpec x := by
  unfold linear_to_alaw alawStepsSpec clamp16 alawCore
  dsimp only
  rw [← alawSeg_eq_segOfThresholds]
  have hsgn : (if max (-32768) (min 32767 x) ≥ 0 then (0:Nat) else 0x80)
      = (if max (-32768) (min 32767 x) < 0 then (0x80:Nat) else 0) := by
    rcases le_or_lt 0 (max (-32768) (min 32767 x)) with h | h
    · rw [if_pos h, if_neg (not_lt.mpr h)]
    · rw [if_neg (not_le.mpr h), if_pos h]
  rw [hsgn]
  split_ifs <;> first | rfl | rw [Nat.lor_assoc]

/-- If-form of the clamp, convenient for `omega`. -/
theorem clamp16_eq (x : Int) :
    clamp16 x = if x ≤ -32768 then -32768 else if 32767 ≤ x then 32767 else x := by
  unfold clamp16
  rw [max_def, min_def]
  split_ifs <;> omega

/-- On non-negative input the sign bit is 0 and the code is the magnitude code. -/
theorem linear_to_alaw_of_nonneg (x : Int) (h : 0 ≤ x) :
    linear_to_alaw x = alawCore (clamp16 x).natAbs := by
  have hc : clamp16 x ≥ 0 := by rw [clamp16_eq]; split_ifs <;> omega
  unfold linear_to_alaw
  dsimp only
  rw [if_pos hc, Nat.zero_or]

/-- On negative input the sign bit 0x80 is ORed onto the magnitude code. -/
theorem linear_to_alaw_of_neg (x : Int) (h : x < 0) :
    linear_to_alaw x = 128 ||| alawCore (clamp16 x).natAbs := by
  have hc : ¬ clamp16 x ≥ 0 := by rw [clamp16_eq]; split_ifs <;> omega
  unfold linear_to_alaw
  dsimp only
  rw [if_neg hc]

theorem header_length_eq (sr L : Nat) : (create_alaw_wav_header sr L).length = 46 := rfl

set_option maxHeartbeats 1600000 in
/-- The RIFF chunk-size field (bytes 4..7) decodes to `36 + num_samples`. -/
theorem header_riff_field (sr L : Nat) (h : 36 + L < 4294967296) :
    readU32 (create_alaw_wav_header sr L) 4 = 36 + L := by
  have e : readU32 (create_alaw_wav_header sr L) 4
      = (36 + L) % 256 + 256 * ((36 + L) / 256 % 256) + 65536 * ((36 + L) / 65536 % 256)
        + 16777216 * ((36 + L) / 16777216 % 256) := rfl
  rw [e]; omega

set_option maxHeartbeats 1600000 in
/-- The data-chunk size field (bytes 42..45) decodes to `num_samples`. -/
theorem header_data_field (sr L : Nat) (h : L < 4294967296) :
    readU32 (create_alaw_wav_header sr L) 42 = L := by
  have e : readU32 (create_alaw_wav_header sr L) 42
      = L % 256 + 256 * (L / 256 % 256) + 65536 * (L / 65536 % 256)
        + 16777216 * (L / 16777216 % 256) := rfl
  rw [e]; omega

theorem truncQ_neg (q : ℚ) : truncQ (-q) = -truncQ q := by
  unfold truncQ
  rcases lt_trichotomy q 0 with h | h | h
  · rw [if_pos (by linarith), if_neg (not_le.mpr h), Int.floor_neg]
  · subst h; simp
  · rw [if_neg (by simp; linarith), if_pos h.le, Int.ceil_neg]

theorem truncQ_le_abs (q : ℚ) :
    |(truncQ q : ℚ)| ≤ |q| ∧ |q| < |(truncQ q : ℚ)| + 1 := by
  unfold truncQ
  rcases le_or_lt 0 q with h | h
  · rw [if_pos h]
    have h1 : (0:Int) ≤ ⌊q⌋ := Int.floor_nonneg.mpr h
    have h1q : (0:ℚ) ≤ (⌊q⌋ : ℚ) := by exact_mod_cast h1
    rw [abs_of_nonneg h, abs_of_nonneg h1q]
    exact ⟨Int.floor_le q, Int.lt_floor_add_one q⟩
  · rw [if_neg (not_le.mpr h)]
    have h1 : ⌈q⌉ ≤ (0:Int) := Int.ceil_le.mpr (by exact_mod_cast h.le)
    have h1q : ((⌈q⌉ : ℚ)) ≤ 0 := by exact_mod_cast h1
    rw [abs_of_neg h, abs_of_nonpos h1q]
    constructor
    · linarith [Int.le_ceil q]
    · linarith [Int.ceil_lt_add_one q]

/-- C1: the claim (with the source's own `File size - 8` comment and the
spec) requires the RIFF chunk-size field of the A-Law header to be
`38 + L`, since the emitted file is `46 + L` bytes; the code writes
`36 + L`. Evaluated at sample rate 8000 and payload length 2000 the field
decodes to 2036, not the required 2038. -/
theorem claim_C1_riff_field_short_by_two :
    readU32 (create_alaw_wav_header 8000 2000) 4 = 36 + 2000 ∧
      (create_alaw_wav_header 8000 2000).length + 2000 - 8 = 38 + 2000 ∧
      36 + 2000 ≠ 38 + 2000 := by
  refine ⟨header_riff_field 8000 2000 (by norm_num), ?_, by norm_num⟩
  rw [header_length_eq]

/-- C2: `linear_to_alaw` computes, for every integer input (hence for every
16-bit signed input), exactly the spec's sequence of steps: clamp to
[-32768, 32767], sign bit 0x80 for negatives, magnitude by absolute value,
early return `sign | 0x7F` at magnitude ≥ 32635, segment as the highest
index `k ≤ 7` with magnitude ≥ threshold[k], the two-branch mantissa with
the `seg = 0` discontinuity, and result `sign | (seg << 4) | mantissa`. -/
theorem claim_C2_encode_follows_spec_steps :
    ∀ x : Int, linear_to_alaw x = alawStepsSpec x :=
  linear_to_alaw_eq_stepsSpec

/-- C3 counterexample: `encode(0)` equals neither 0x55 nor 0xD5 on this
code, refuting the claim at input 0. -/
theorem claim_C3_counterexample :
    linear_to_alaw 0 ≠ 0x55 ∧ linear_to_alaw 0 ≠ 0xD5 := by decide

/-- C3 amended: `encode(0)` returns 0x00 (sign bit 0, segment 0, mantissa
`0 >> 4 = 0`; this encoder applies no 0x55 toggling). -/
theorem claim_C3_encode_zero_is_zero : linear_to_alaw 0 = 0x00 := by decide

/-- C4 counterexample: 255 and 256 are non-negative 16-bit samples with
255 < 256, yet `encode(255) = 31 > 16 = encode(256)`: the masked mantissa
wraps just above the segment-1 threshold 254, so the full code value is not
order-preserving. -/
theorem claim_C4_counterexample :
    (0:Int) ≤ 255 ∧ (255:Int) < 256 ∧ (256:Int) ≤ 32767 ∧
      ¬ linear_to_alaw 255 ≤ linear_to_alaw 256 := by decide

/-- C4 amended: for non-negative samples `x1 < x2` the segment field (the
upper nibble of the code) is order-preserving, `encode(x1) >> 4 ≤
encode(x2) >> 4`; the full code is not, because the segment thresholds
254, 509, 1019, … are not multiples of the mantissa step, letting the
masked mantissa wrap within a segment (e.g. encode(255) = 31 >
encode(256) = 16). -/
theorem claim_C4_segment_monotone (x1 x2 : Int) (h0 : 0 ≤ x1) (h12 : x1 < x2) :
    linear_to_alaw x1 >>> 4 ≤ linear_to_alaw x2 >>> 4 := by
  have h02 : 0 ≤ x2 := by omega
  rw [linear_to_alaw_of_nonneg x1 h0, linear_to_alaw_of_nonneg x2 h02,
      alawCore_shiftRight4, alawCore_shiftRight4]
  have hm : (clamp16 x1).natAbs ≤ (clamp16 x2).natAbs := by
    rw [clamp16_eq, clamp16_eq]; split_ifs <;> omega
  have h7 := alawSeg_lt (clamp16 x1).natAbs
  have hmono := alawSeg_mono hm
  split_ifs <;> omega

theorem claim_C4_segment_monotone_witness :
    linear_to_alaw 100 >>> 4 ≤ linear_to_alaw 5000 >>> 4 :=
  claim_C4_segment_monotone 100 5000 (by decide) (by decide)

/-- C5: for every nonzero 16-bit sample whose negation is also representable
(no clamping boundary crossed, so the magnitude path is identical),
`encode(-x) = encode(x) ^ 0x80`: the two codes differ only in the sign bit. -/
theorem claim_C5_sign_bit_flip (x : Int) (hne : x ≠ 0) (h1 : -32767 ≤ x)
    (h2 : x ≤ 32767) : linear_to_alaw (-x) = linear_to_alaw x ^^^ 0x80 := by
  have hcor := alawCore_lt x.natAbs
  rcases lt_or_gt_of_ne hne with hneg | hpos
  · rw [linear_to_alaw_of_nonneg (-x) (by omega), linear_to_alaw_of_neg x hneg]
    have e1 : (clamp16 (-x)).natAbs = x.natAbs := by
      rw [clamp16_eq]; split_ifs <;> omega
    have e2 : (clamp16 x).natAbs = x.natAbs := by
      rw [clamp16_eq]; split_ifs <;> omega
    rw [e1, e2, lor128_lt _ hcor, xor128_cancel _ hcor]
  · rw [linear_to_alaw_of_neg (-x) (by omega), linear_to_alaw_of_nonneg x (by omega)]
    have e1 : (clamp16 (-x)).natAbs = x.natAbs := by
      rw [clamp16_eq]; split_ifs <;> omega
    have e2 : (clamp16 x).natAbs = x.natAbs := by
      rw [clamp16_eq]; split_ifs <;> omega
    rw [e1, e2, lor128_lt _ hcor, xor128_lt _ hcor]

theorem claim_C5_sign_bit_flip_witness :
    linear_to_alaw (-1000) = linear_to_alaw 1000 ^^^ 0x80 :=
  claim_C5_sign_bit_flip 1000 (by decide) (by decide) (by decide)

/-- C6: on every sample of the 16-bit signed range the encoder is a total
function (a Lean `def` with no partiality or exception path) whose result
is a byte: `linear_to_alaw s ≤ 255` (the result type `ℕ` gives the lower
bound 0). -/
theorem claim_C6_total_byte_range (s : Int) (_h1 : -32768 ≤ s) (_h2 : s ≤ 32767) :
    linear_to_alaw s ≤ 255 := by
  rcases le_or_lt 0 s with h | h
  · rw [linear_to_alaw_of_nonneg s h]
    have := alawCore_lt (clamp16 s).natAbs
    omega
  · rw [linear_to_alaw_of_neg s h, lor128_lt _ (alawCore_lt _)]
    have := alawCore_lt (clamp16 s).natAbs
    omega

theorem claim_C6_total_byte_range_witness : linear_to_alaw (-32768) ≤ 255 :=
  claim_C6_total_byte_range (-32768) (by decide) (by decide)

/-- C7: the data-chunk size field (bytes 42..45 of the header) is written
from the actual payload length and decodes to exactly `L` for every payload
length the writer can emit. -/
theorem claim_C7_data_size_field (sr L : Nat) (h : L < 4294967296) :
    readU32 (create_alaw_wav_header sr L) 42 = L :=
  header_data_field sr L h

theorem claim_C7_data_size_field_witness :
    readU32 (create_alaw_wav_header 8000 2000) 42 = 2000 :=
  claim_C7_data_size_field 8000 2000 (by norm_num)

/-- C8 counterexample: at the sample x = 1/2 (exactly representable in
float64, with exact product 16383.5), the quantizer
`(audio * 32767).astype(np.int16)` yields 16383 while `round(x * 32767)` is
16384: the code truncates toward zero rather than rounding. -/
theorem claim_C8_counterexample :
    quantize16 (1/2) = 16383 ∧ round ((1/2 : ℚ) * 32767) = 16384 := by
  constructor
  · show truncQ ((1/2 : ℚ) * 32767) = 16383
    unfold truncQ
    rw [if_pos (by norm_num), Int.floor_eq_iff]
    constructor <;> norm_num
  · rw [round_eq, Int.floor_eq_iff]
    constructor <;> norm_num

/-- C8 amended: the 16-bit quantization feeding the A-Law encoder computes
`sample16 = trunc(x * 32767)` (truncation toward zero, as
`astype(np.int16)` performs), which is symmetric around zero with no offset
and within one unit of `x * 32767`; it is not `round(x * 32767)`. -/
theorem claim_C8_quantizer_truncates (x : ℚ) :
    quantize16 (-x) = -quantize16 x ∧
      |(quantize16 x : ℚ)| ≤ |x * 32767| ∧
      |x * 32767| < |(quantize16 x : ℚ)| + 1 := by
  refine ⟨?_, truncQ_le_abs _⟩
  show truncQ (-x * 32767) = -truncQ (x * 32767)
  rw [neg_mul, truncQ_neg]

/-- C9 (PCM8 quantizer modelled from the spec, no PCM8 writer exists under
src/): 2000 samples at amplitude 0.0 quantize under
`clamp(round((x + 1.0) * 127.5), 0, 255)` to a payload whose every byte
equals 128. -/
theorem claim_C9_pcm8_zero_payload :
    (List.replicate 2000 (0:ℚ)).map pcm8_quantize = List.replicate 2000 128 := by
  rw [List.map_replicate]
  have h : pcm8_quantize 0 = 128 := by
    unfold pcm8_quantize
    rw [round_eq]
    have hf : ⌊((0:ℚ) + 1) * (127.5 : ℚ) + 1/2⌋ = (128:Int) := by
      rw [Int.floor_eq_iff]
      constructor <;> norm_num
    rw [hf]
    decide
  rw [h]

/-- C10: for every sample rate and payload, the A-Law header is exactly 46
bytes (12-byte RIFF preamble, 26-byte fmt chunk, 8-byte data prefix), the
complete file `header ++ payload` is `46 + L` bytes, and the declared RIFF
chunk size is `36 + L`. -/
theorem claim_C10_header_layout (sr L : Nat) (h : 36 + L < 4294967296)
    (payload : List Nat) (hp : payload.length = L) :
    (create_alaw_wav_header sr L).length = 46 ∧
      (create_alaw_wav_header sr L ++ payload).length = 46 + L ∧
      readU32 (create_alaw_wav_header sr L) 4 = 36 + L := by
  refine ⟨header_length_eq _ _, ?_, header_riff_field _ _ h⟩
  rw [List.length_append, header_length_eq, hp]

theorem claim_C10_header_layout_witness :
    (create_alaw_wav_header 8000 2000).length = 46 ∧
      (create_alaw_wav_header 8000 2000 ++ List.replicate 2000 0).length
        = 46 + 2000 ∧
      readU32 (create_alaw_wav_header 8000 2000) 4 = 36 + 2000 :=
  claim_C10_header_layout 8000 2000 (by norm_num) (List.replicate 2000 0)
    (List.length_replicate 2000 0)

end Solari
